import Mathlib

/-!
Verification of mcp-graphql-forge against its specification.

The development shallowly embeds the two source variants of the tool-call
path: the refactored package under `internal/forge` (namespace `Forge`:
`RegisterTools`, `makeHandler`, `ExecuteGraphQL` from handler.go,
graphql.go, types.go) and the older single-file variant (namespace `Main`:
`makeHandler`, `executeGraphQL` from main.go).  External effects — the
token-acquisition command, the HTTP POST, the process environment — are
passed in as explicit outcome values, and the handler's observable
behaviour (result value, Go-level error, whether the command ran, the
command environment, the outbound request, the debug log) is collected in
a `HandlerOutput` record.
-/

/-- A JSON-like value, standing for Go's `interface{}` argument values.
`null` is Go's nil interface (marshalled as JSON null). -/
inductive JVal where
  | null
  | str (s : String)
  | num (n : Int)
  | boolean (b : Bool)
  deriving DecidableEq, Repr

/-- Go map lookup `m[k]` on an association list (keys are unique in a Go
map; lookup finds the binding for `k` if any). -/
def lookupStr (m : List (String × JVal)) (k : String) : Option JVal :=
  match m with
  | [] => none
  | (k', v) :: rest => if k' = k then some v else lookupStr rest k

/-- Remove every binding for key `k`. -/
def removeKey (m : List (String × JVal)) (k : String) :
    List (String × JVal) :=
  match m with
  | [] => []
  | (k', v) :: rest =>
    if k' = k then removeKey rest k else (k', v) :: removeKey rest k

/-- Go map assignment `m[k] = v`: replaces any existing binding for `k`.
Represented by removing old bindings and appending; only lookup semantics
matter (Go maps are unordered). -/
def mapInsert (m : List (String × JVal)) (k : String) (v : JVal) :
    List (String × JVal) :=
  removeKey m k ++ [(k, v)]

/-- One query variable: `InputSpec` / the anonymous `Inputs` struct in
types.go — name, type tag ("string" or "number"), required flag.  The
description only feeds tool metadata, not the call path. -/
structure InputSpec where
  name : String
  type : String
  required : Bool
  deriving DecidableEq, Repr

/-- `ToolConfig` (types.go): one tool's YAML definition, restricted to the
fields the call path reads. -/
structure ToolConfig where
  name : String
  query : String
  inputs : List InputSpec
  deriving DecidableEq, Repr

/-- `ForgeConfig` (types.go): global server settings.  `env` is a Go map
(string to string); it is carried as a key/value list whose keys are
distinct, in some iteration order. -/
structure ForgeConfig where
  name : String
  url : String
  tokenCommand : String
  env : List (String × String)
  envPassthrough : Bool
  deriving Repr

/-- Step 1 of the handler (handler.go lines 105-114 / main.go 133-142):
walk the declared inputs in order; a required input absent from the
caller's arguments aborts with that input's name; otherwise bind the
supplied value (or Go's nil = null for a missing optional) into `vars`. -/
def gatherVars (inputs : List InputSpec) (args : List (String × JVal))
    (acc : List (String × JVal)) : Except String (List (String × JVal)) :=
  match inputs with
  | [] => .ok acc
  | inp :: rest =>
    match lookupStr args inp.name with
    | some v => gatherVars rest args (mapInsert acc inp.name v)
    | none =>
      if inp.required then .error inp.name
      else gatherVars rest args (mapInsert acc inp.name JVal.null)

/-- Outcome of running the token-acquisition command (`cmd.Output()`):
trimmed by the caller.  `exitErr` is Go's `*exec.ExitError` carrying the
error string (e.g. "exit status 1") and captured stderr; `otherErr` is any
other error (command not started, etc.). -/
inductive CmdOutcome where
  | ok (stdout : String)
  | exitErr (errStr : String) (stderr : String)
  | otherErr (errStr : String)
  deriving DecidableEq, Repr

/-- Outcome of the HTTP layer as seen by `ExecuteGraphQL`: request
creation failure, connection (`Do`) failure, body-read failure, or a
network-level success carrying the status code and the raw body bytes. -/
inductive HttpOutcome where
  | reqErr (msg : String)
  | connErr (msg : String)
  | readErr (msg : String)
  | ok (status : Nat) (body : String)
  deriving DecidableEq, Repr

/-- `GraphqlRequest` (types.go lines 111-115): the POST payload
`{query, variables}`; `variables` carries the `omitempty` JSON tag, so the
serialized object drops the field exactly when the map is empty. -/
structure GraphqlRequest where
  query : String
  vars : List (String × JVal)
  deriving DecidableEq, Repr

/-- Whether the serialized payload carries a `variables` field: Go's
`omitempty` keeps it iff the map is non-empty. -/
def GraphqlRequest.hasVariablesField (r : GraphqlRequest) : Bool :=
  !r.vars.isEmpty

/-- The outbound HTTP request as built by `ExecuteGraphQL`: URL,
Content-Type header, optional Authorization header, and the payload whose
JSON serialization is the body. -/
structure HttpRequest where
  url : String
  contentType : String
  authHeader : Option String
  body : GraphqlRequest
  deriving DecidableEq, Repr

/-- `httputil.DumpRequestOut(req, true)`: the wire text of the outgoing
request — request line and all headers (body elided in this model; the
headers are what matters to the properties below). -/
def dumpRequestOut (r : HttpRequest) : String :=
  "POST " ++ r.url ++ " HTTP/1.1\r\n" ++
    (match r.authHeader with
     | some a => "Authorization: " ++ a ++ "\r\n"
     | none => "") ++
    "Content-Type: " ++ r.contentType ++ "\r\n\r\n"

/-- Go `strings.HasPrefix s pre` on rune lists: `goHasPre s pre` is true
iff `pre` is an initial segment of `s`. -/
def goHasPre : List Char → List Char → Bool
  | _, [] => true
  | [], _ :: _ => false
  | c :: cs, p :: ps => c == p && goHasPre cs ps

/-- One environment entry string `key=value`, as a rune list. -/
def envEntry (k v : String) : List Char :=
  k.data ++ '=' :: v.data

/-- The env-overlay loop (handler.go lines 137-147 / main.go 165-175):
for each configured key/value pair, drop every entry of the list having
the string prefix `key=`, then append `key=value`. -/
def overlayEnv (base : List (List Char)) (env : List (String × String)) :
    List (List Char) :=
  env.foldl
    (fun acc kv =>
      acc.filter (fun e => !goHasPre e (kv.1.data ++ ['=']))
        ++ [envEntry kv.1 kv.2])
    base

/-- Whitespace as trimmed by Go's `bytes.TrimSpace` (ASCII cases plus the
two Latin-1 spaces `unicode.IsSpace` accepts). -/
def goIsSpace (c : Char) : Bool :=
  c = ' ' || c = '\t' || c = '\n' || (c = Char.ofNat 11) ||
    (c = Char.ofNat 12) || c = '\r' || (c = Char.ofNat 133) ||
    (c = Char.ofNat 160)

/-- `bytes.TrimSpace`: drop leading and trailing whitespace. -/
def trimSpace (s : String) : String :=
  ⟨((s.data.dropWhile goIsSpace).reverse.dropWhile goIsSpace).reverse⟩

/-- An MCP call result: an error result (`mcp.NewToolResultError…`) or a
text result (`mcp.NewToolResultText`), each carrying its text. -/
inductive CallToolResult where
  | errorResult (text : String)
  | textResult (text : String)
  deriving DecidableEq, Repr

/-- Everything observable about one handler invocation: the protocol
result, the Go-level error returned alongside it, whether the token
command was spawned and with which environment, the resolved credential,
the marshalled payload, the outbound request (if one was created), and
the debug-log lines emitted during the call. -/
structure HandlerOutput where
  result : CallToolResult
  goErr : Option String
  tokenCommandRan : Bool
  cmdEnv : Option (List (List Char))
  resolvedCred : Option String
  payload : Option GraphqlRequest
  request : Option HttpRequest
  debugLog : List String
  deriving Repr

/-- Result of `ExecuteGraphQL` plus its observable effects. -/
structure GqlOutcome where
  payload : GraphqlRequest
  request : Option HttpRequest
  result : Except String String
  log : List String
  deriving Repr

/-- Render of `%v` on the env list, for the debug log. -/
def renderEnv (l : List (List Char)) : String :=
  "[" ++ String.intercalate " " (l.map (fun e => ⟨e⟩)) ++ "]"

namespace Forge

/-- `ExecuteGraphQL` (graphql.go lines 14-67): marshal `{query, variables}`,
build the POST with Content-Type JSON and — when the credential string is
non-empty — an Authorization header set verbatim to it; when debugging,
log the full request dump; send; return the raw body regardless of status
code, with client-side errors only for request creation, connection, or
body-read failure. -/
def ExecuteGraphQL (url query : String) (vars : List (String × JVal))
    (token : String) (isDebug : Bool) (http : HttpOutcome) : GqlOutcome :=
  let payload : GraphqlRequest := { query := query, vars := vars }
  match http with
  | .reqErr m =>
    { payload := payload, request := none,
      result := .error ("create request: " ++ m), log := [] }
  | .connErr m =>
    let req : HttpRequest :=
      { url := url, contentType := "application/json",
        authHeader := if token ≠ "" then some token else none,
        body := payload }
    { payload := payload, request := some req,
      result := .error ("execute request: " ++ m),
      log := if isDebug then
          ["--- GraphQL Request ---", dumpRequestOut req,
            "-----------------------"] else [] }
  | .readErr m =>
    let req : HttpRequest :=
      { url := url, contentType := "application/json",
        authHeader := if token ≠ "" then some token else none,
        body := payload }
    { payload := payload, request := some req,
      result := .error ("read response: " ++ m),
      log := if isDebug then
          ["--- GraphQL Request ---", dumpRequestOut req,
            "-----------------------"] else [] }
  | .ok status body =>
    let req : HttpRequest :=
      { url := url, contentType := "application/json",
        authHeader := if token ≠ "" then some token else none,
        body := payload }
    { payload := payload, request := some req, result := .ok body,
      log := (if isDebug then
          ["--- GraphQL Request ---", dumpRequestOut req,
            "-----------------------"] else []) ++
        (if isDebug then
          ["--- GraphQL Response ---", "Status Code: " ++ toString status,
            "Body: " ++ body, "------------------------"] else []) }

/-- Steps 3-4 of the handler (handler.go lines 189-198): call
`ExecuteGraphQL`; a client error becomes a call-level error result via
`NewToolResultErrorFromErr("GraphQL execution failed", err)`, success
returns the raw bytes as the text result.  All paths return a nil Go
error. -/
def finishCall (cfg : ForgeConfig) (tcfg : ToolConfig)
    (vars : List (String × JVal)) (token : String) (isDebug : Bool)
    (http : HttpOutcome) (ran : Bool) (env : Option (List (List Char)))
    (preLog : List String) : HandlerOutput :=
  let g := ExecuteGraphQL cfg.url tcfg.query vars token isDebug http
  { result :=
      match g.result with
      | .error e => .errorResult ("GraphQL execution failed: " ++ e)
      | .ok body => .textResult body,
    goErr := none, tokenCommandRan := ran, cmdEnv := env,
    resolvedCred := some token, payload := some g.payload,
    request := g.request, debugLog := preLog ++ g.log }

/-- `makeHandler` (handler.go lines 103-199).  Parameters beyond the two
configs: the debug flag, the process environment (`os.Environ()`), the
credential attached to the call context (from an inbound Authorization
header), the hash function used for credential logging (`sha256` hex), the
behaviours of the token command and of the network, and the caller's
argument map. -/
def makeHandler (cfg : ForgeConfig) (tcfg : ToolConfig) (isDebug : Bool)
    (osEnv : List (List Char)) (ctxAuth : Option String)
    (hashFn : String → String) (cmd : CmdOutcome) (http : HttpOutcome)
    (args : List (String × JVal)) : HandlerOutput :=
  match gatherVars tcfg.inputs args [] with
  | .error name =>
    { result := .errorResult ("missing required argument: " ++ name),
      goErr := none, tokenCommandRan := false, cmdEnv := none,
      resolvedCred := none, payload := none, request := none,
      debugLog := [] }
  | .ok vars =>
    if cfg.tokenCommand ≠ "" then
      let envList :=
        overlayEnv (if cfg.envPassthrough then osEnv else []) cfg.env
      let cmdLog :=
        if isDebug then
          ["Executing token command: " ++ cfg.tokenCommand] ++
            (if 0 < envList.length then
              ["Environment variables: " ++ renderEnv envList] else [])
        else []
      match cmd with
      | .exitErr errStr stderr =>
        let t := trimSpace stderr
        let errMsg :=
          if t ≠ "" then
            "token_command failed: " ++ errStr ++ " Stderr: " ++ t
          else "token_command failed: " ++ errStr
        { result := .errorResult (errMsg ++ ": " ++ errStr),
          goErr := none, tokenCommandRan := true, cmdEnv := some envList,
          resolvedCred := none, payload := none, request := none,
          debugLog := cmdLog }
      | .otherErr errStr =>
        { result :=
            .errorResult ("token_command failed" ++ ": " ++ errStr),
          goErr := none, tokenCommandRan := true, cmdEnv := some envList,
          resolvedCred := none, payload := none, request := none,
          debugLog := cmdLog }
      | .ok out =>
        let token := "Bearer " ++ trimSpace out
        let tokLog :=
          if isDebug then ["Obtained token (sha256): " ++ hashFn token]
          else []
        finishCall cfg tcfg vars token isDebug http true (some envList)
          (cmdLog ++ tokLog)
    else
      let token := (ctxAuth.getD "")
      let tokLog :=
        if isDebug then ["Pass through token (sha256): " ++ hashFn token]
        else []
      finishCall cfg tcfg vars token isDebug http false none tokLog

end Forge

namespace Main

/-- `executeGraphQL` (main.go lines 75-128): identical to the package
variant except that the `Bearer ` scheme prefix is applied here, in the
client, to a non-empty credential. -/
def executeGraphQL (url query : String) (vars : List (String × JVal))
    (token : String) (isDebug : Bool) (http : HttpOutcome) : GqlOutcome :=
  let payload : GraphqlRequest := { query := query, vars := vars }
  match http with
  | .reqErr m =>
    { payload := payload, request := none,
      result := .error ("create request: " ++ m), log := [] }
  | .connErr m =>
    let req : HttpRequest :=
      { url := url, contentType := "application/json",
        authHeader :=
          if token ≠ "" then some ("Bearer " ++ token) else none,
        body := payload }
    { payload := payload, request := some req,
      result := .error ("execute request: " ++ m),
      log := if isDebug then
          ["--- GraphQL Request ---", dumpRequestOut req,
            "-----------------------"] else [] }
  | .readErr m =>
    let req : HttpRequest :=
      { url := url, contentType := "application/json",
        authHeader :=
          if token ≠ "" then some ("Bearer " ++ token) else none,
        body := payload }
    { payload := payload, request := some req,
      result := .error ("read response: " ++ m),
      log := if isDebug then
          ["--- GraphQL Request ---", dumpRequestOut req,
            "-----------------------"] else [] }
  | .ok status body =>
    let req : HttpRequest :=
      { url := url, contentType := "application/json",
        authHeader :=
          if token ≠ "" then some ("Bearer " ++ token) else none,
        body := payload }
    { payload := payload, request := some req, result := .ok body,
      log := (if isDebug then
          ["--- GraphQL Request ---", dumpRequestOut req,
            "-----------------------"] else []) ++
        (if isDebug then
          ["--- GraphQL Response ---", "Status Code: " ++ toString status,
            "Body: " ++ body, "------------------------"] else []) }

/-- Steps 3-4 of the single-file handler (main.go lines 209-217). -/
def finishCall (cfg : ForgeConfig) (tcfg : ToolConfig)
    (vars : List (String × JVal)) (token : String) (isDebug : Bool)
    (http : HttpOutcome) (ran : Bool) (env : Option (List (List Char)))
    (preLog : List String) : HandlerOutput :=
  let g := executeGraphQL cfg.url tcfg.query vars token isDebug http
  { result :=
      match g.result with
      | .error e => .errorResult ("GraphQL execution failed: " ++ e)
      | .ok body => .textResult body,
    goErr := none, tokenCommandRan := ran, cmdEnv := env,
    resolvedCred := some token, payload := some g.payload,
    request := g.request, debugLog := preLog ++ g.log }

/-- `makeHandler` (main.go lines 131-219): same gathering and token-command
steps, but the credential keeps the raw trimmed stdout (no scheme
prefix — the client adds it), there is no context pass-through path, and
the debug log prints the obtained token in plaintext. -/
def makeHandler (cfg : ForgeConfig) (tcfg : ToolConfig) (isDebug : Bool)
    (osEnv : List (List Char)) (cmd : CmdOutcome) (http : HttpOutcome)
    (args : List (String × JVal)) : HandlerOutput :=
  match gatherVars tcfg.inputs args [] with
  | .error name =>
    { result := .errorResult ("missing required argument: " ++ name),
      goErr := none, tokenCommandRan := false, cmdEnv := none,
      resolvedCred := none, payload := none, request := none,
      debugLog := [] }
  | .ok vars =>
    if cfg.tokenCommand ≠ "" then
      let envList :=
        overlayEnv (if cfg.envPassthrough then osEnv else []) cfg.env
      let cmdLog :=
        if isDebug then
          ["Executing token command: " ++ cfg.tokenCommand] ++
            (if 0 < envList.length then
              ["Environment variables: " ++ renderEnv envList] else [])
        else []
      match cmd with
      | .exitErr errStr stderr =>
        let t := trimSpace stderr
        let errMsg :=
          if t ≠ "" then
            "token_command failed: " ++ errStr ++ " Stderr: " ++ t
          else "token_command failed: " ++ errStr
        { result := .errorResult (errMsg ++ ": " ++ errStr),
          goErr := none, tokenCommandRan := true, cmdEnv := some envList,
          resolvedCred := none, payload := none, request := none,
          debugLog := cmdLog }
      | .otherErr errStr =>
        { result :=
            .errorResult ("token_command failed" ++ ": " ++ errStr),
          goErr := none, tokenCommandRan := true, cmdEnv := some envList,
          resolvedCred := none, payload := none, request := none,
          debugLog := cmdLog }
      | .ok out =>
        let token := trimSpace out
        let tokLog :=
          if isDebug then ["Obtained token: " ++ token] else []
        finishCall cfg tcfg vars token isDebug http true (some envList)
          (cmdLog ++ tokLog)
    else
      finishCall cfg tcfg vars "" isDebug http false none []

end Main

/-- One file found by the `*.yaml` glob in the config directory, given by
its base name: either one that `LoadToolConfig` fails to parse (with the
error text) or one that parses to a `ToolConfig`. -/
inductive ToolFile where
  | bad (base : String) (err : String)
  | good (base : String) (tcfg : ToolConfig)
  deriving DecidableEq, Repr

/-- The type-tag check of the registration loop: only "string" and
"number" are supported (handler.go lines 81-89). -/
def inputTypeOk (i : InputSpec) : Bool :=
  i.type == "string" || i.type == "number"

/-- The warning printed for one unsupported input type
(handler.go line 87): `Warning: unsupported type %q in %s`. -/
def unsupportedWarning (t : ToolConfig) (i : InputSpec) : String :=
  "Warning: unsupported type \"" ++ i.type ++ "\" in " ++ t.name

/-- The warnings the inner input loop emits for one tool, in input
order — one per unsupported type tag. -/
def inputWarnings (t : ToolConfig) : List String :=
  t.inputs.filterMap
    (fun i => if inputTypeOk i then none else some (unsupportedWarning t i))

/-- The `valid` flag after the input loop: true iff every declared input
has a supported type tag. -/
def validTool (t : ToolConfig) : Bool :=
  t.inputs.all inputTypeOk

/-- One iteration of the registration loop (handler.go lines 43-97):
skip `forge.yaml`; an unparsable file yields a skip warning and no
registration; a parsed tool yields one warning per unsupported input type
and is registered iff all its types are supported.  Returns the
registered (file, tool) pair, if any, and the warnings printed. -/
def processToolFile (f : ToolFile) : Option (String × ToolConfig) × List String :=
  match f with
  | .bad base err =>
    if base = "forge.yaml" then (none, [])
    else (none, ["Warning: skipping " ++ base ++ ": " ++ err])
  | .good base t =>
    if base = "forge.yaml" then (none, [])
    else ((if validTool t then some (base, t) else none), inputWarnings t)

/-- `RegisterTools` (handler.go lines 36-100): fold the loop body over the
discovered files; since each iteration appends its own registration and
warnings, the loop is the pointwise concatenation of `processToolFile`.
Returns the registered tools (with their files) and all warnings; the Go
function returns a nil error on this path. -/
def RegisterTools (files : List ToolFile) :
    List (String × ToolConfig) × List String :=
  (files.filterMap (fun f => (processToolFile f).1),
   (files.map (fun f => (processToolFile f).2)).flatten)

/-! ### Concrete fixtures for instantiations -/

/-- A sample tool declaring one required string input `id`. -/
def sampleTool : ToolConfig :=
  { name := "tool", query := "query Q($id: ID!) { user(id: $id) { id } }",
    inputs := [{ name := "id", type := "string", required := true }] }

/-- A sample tool declaring no inputs. -/
def sampleToolNoInputs : ToolConfig :=
  { name := "bare", query := "query { ping }", inputs := [] }

/-- A sample tool declaring an input with an unsupported type tag. -/
def sampleBadTool : ToolConfig :=
  { name := "badtool", query := "query { x }",
    inputs := [{ name := "flag", type := "boolean", required := false }] }

/-- Sample settings with a token command configured. -/
def sampleCfg : ForgeConfig :=
  { name := "srv", url := "http://e", tokenCommand := "get-token",
    env := [], envPassthrough := false }

/-- Sample settings with no token command configured. -/
def sampleCfgNoCmd : ForgeConfig :=
  { name := "srv", url := "http://e", tokenCommand := "",
    env := [], envPassthrough := false }

/-- Sample settings with an env override and passthrough enabled. -/
def sampleCfgEnv : ForgeConfig :=
  { name := "srv", url := "http://e", tokenCommand := "get-token",
    env := [("FOO", "bar")], envPassthrough := true }

/-! ### Map lemmas -/

theorem lookupStr_append (m₁ m₂ : List (String × JVal)) (k : String) :
    lookupStr (m₁ ++ m₂) k =
      match lookupStr m₁ k with
      | some v => some v
      | none => lookupStr m₂ k := by
  induction m₁ with
  | nil => rfl
  | cons kv rest ih =>
    obtain ⟨k', v⟩ := kv
    by_cases h : k' = k <;> simp [lookupStr, h, ih]

theorem lookupStr_removeKey_self (m : List (String × JVal)) (k : String) :
    lookupStr (removeKey m k) k = none := by
  induction m with
  | nil => rfl
  | cons kv rest ih =>
    obtain ⟨k', v⟩ := kv
    by_cases h : k' = k <;> simp [removeKey, h, lookupStr, ih]

theorem lookupStr_removeKey_ne (m : List (String × JVal)) (k k' : String)
    (h : k' ≠ k) :
    lookupStr (removeKey m k) k' = lookupStr m k' := by
  induction m with
  | nil => rfl
  | cons kv rest ih =>
    obtain ⟨k₀, v⟩ := kv
    by_cases h0 : k₀ = k
    · subst h0
      have hne : k₀ ≠ k' := fun he => h he.symm
      simp [removeKey, lookupStr, hne, ih]
    · by_cases h1 : k₀ = k' <;> simp [removeKey, h0, h1, h, lookupStr, ih]

theorem lookupStr_mapInsert (m : List (String × JVal)) (k : String)
    (v : JVal) (k' : String) :
    lookupStr (mapInsert m k v) k' =
      if k' = k then some v else lookupStr m k' := by
  unfold mapInsert
  rw [lookupStr_append]
  by_cases h : k' = k
  · subst h
    rw [lookupStr_removeKey_self]
    simp [lookupStr]
  · rw [lookupStr_removeKey_ne _ _ _ h]
    have h' : k ≠ k' := fun he => h he.symm
    cases lookupStr m k' <;> simp [lookupStr, h, h']

/-! ### gatherVars lemmas -/

theorem gatherVars_ok_lookup (inputs : List InputSpec)
    (args acc vars : List (String × JVal))
    (h : gatherVars inputs args acc = .ok vars) (k : String) :
    lookupStr vars k =
      if k ∈ inputs.map (fun i => i.name) then
        some ((lookupStr args k).getD .null)
      else lookupStr acc k := by
  induction inputs generalizing acc with
  | nil =>
    simp only [gatherVars] at h
    cases h
    simp
  | cons inp rest ih =>
    cases hv : lookupStr args inp.name with
    | some v =>
      rw [gatherVars, hv] at h
      rw [ih _ h]
      by_cases hk : k = inp.name
      · rw [hk]
        by_cases hr : inp.name ∈ rest.map (fun i => i.name) <;>
          simp [hr, lookupStr_mapInsert, hv]
      · by_cases hr : k ∈ rest.map (fun i => i.name) <;>
          simp [hr, hk, lookupStr_mapInsert]
    | none =>
      by_cases hreq : inp.required
      · rw [gatherVars, hv, if_pos hreq] at h
        cases h
      · rw [gatherVars, hv, if_neg hreq] at h
        rw [ih _ h]
        by_cases hk : k = inp.name
        · rw [hk]
          by_cases hr : inp.name ∈ rest.map (fun i => i.name) <;>
            simp [hr, lookupStr_mapInsert, hv]
        · by_cases hr : k ∈ rest.map (fun i => i.name) <;>
            simp [hr, hk, lookupStr_mapInsert]

theorem gatherVars_error_of_missing (inputs : List InputSpec)
    (args acc : List (String × JVal))
    (h : ∃ inp ∈ inputs, inp.required ∧ lookupStr args inp.name = none) :
    ∃ inp ∈ inputs, inp.required ∧ lookupStr args inp.name = none ∧
      gatherVars inputs args acc = .error inp.name := by
  induction inputs generalizing acc with
  | nil => simp at h
  | cons inp rest ih =>
    cases hv : lookupStr args inp.name with
    | none =>
      by_cases hreq : inp.required
      · exact ⟨inp, List.mem_cons_self _ _, hreq, hv,
          by rw [gatherVars, hv, if_pos hreq]⟩
      · obtain ⟨i, hi, hr, hm⟩ := h
        rcases List.mem_cons.mp hi with rfl | hi'
        · exact absurd hr hreq
        · obtain ⟨j, hj, h1, h2, h3⟩ := ih _ ⟨i, hi', hr, hm⟩
          exact ⟨j, List.mem_cons_of_mem _ hj, h1, h2,
            by rw [gatherVars, hv, if_neg hreq]; exact h3⟩
    | some v =>
      obtain ⟨i, hi, hr, hm⟩ := h
      rcases List.mem_cons.mp hi with rfl | hi'
      · rw [hv] at hm; cases hm
      · obtain ⟨j, hj, h1, h2, h3⟩ := ih _ ⟨i, hi', hr, hm⟩
        exact ⟨j, List.mem_cons_of_mem _ hj, h1, h2,
          by rw [gatherVars, hv]; exact h3⟩

theorem gatherVars_ok_of_complete (inputs : List InputSpec)
    (args acc : List (String × JVal))
    (h : ∀ inp ∈ inputs, inp.required → (lookupStr args inp.name).isSome) :
    ∃ vars, gatherVars inputs args acc = .ok vars := by
  induction inputs generalizing acc with
  | nil => exact ⟨acc, rfl⟩
  | cons inp rest ih =>
    cases hv : lookupStr args inp.name with
    | some v =>
      obtain ⟨vars, hvars⟩ :=
        ih (mapInsert acc inp.name v)
          (fun i hi => h i (List.mem_cons_of_mem _ hi))
      exact ⟨vars, by rw [gatherVars, hv]; exact hvars⟩
    | none =>
      have hreq : ¬ inp.required := by
        intro hr
        have := h inp (List.mem_cons_self _ _) hr
        rw [hv] at this
        cases this
      obtain ⟨vars, hvars⟩ :=
        ih (mapInsert acc inp.name JVal.null)
          (fun i hi => h i (List.mem_cons_of_mem _ hi))
      exact ⟨vars, by rw [gatherVars, hv, if_neg hreq]; exact hvars⟩

/-! ### Claim C1 -/

/-- C1: for every tool call whose argument mapping omits at least one
input declared required, the handler returns a call-level error result
naming that missing argument, and neither the token-acquisition command
nor the outbound GraphQL HTTP request is executed for that call. -/
theorem c1_missing_required_argument
    (cfg : ForgeConfig) (tcfg : ToolConfig) (isDebug : Bool)
    (osEnv : List (List Char)) (ctxAuth : Option String)
    (hashFn : String → String) (cmd : CmdOutcome) (http : HttpOutcome)
    (args : List (String × JVal))
    (h : ∃ inp ∈ tcfg.inputs, inp.required ∧ lookupStr args inp.name = none) :
    ∃ inp ∈ tcfg.inputs, inp.required ∧ lookupStr args inp.name = none ∧
      (Forge.makeHandler cfg tcfg isDebug osEnv ctxAuth hashFn cmd http
          args).result
        = .errorResult ("missing required argument: " ++ inp.name) ∧
      (Forge.makeHandler cfg tcfg isDebug osEnv ctxAuth hashFn cmd http
          args).tokenCommandRan = false ∧
      (Forge.makeHandler cfg tcfg isDebug osEnv ctxAuth hashFn cmd http
          args).request = none := by
  obtain ⟨inp, hi, hreq, hmiss, herr⟩ :=
    gatherVars_error_of_missing tcfg.inputs args [] h
  exact ⟨inp, hi, hreq, hmiss,
    by simp [Forge.makeHandler, herr],
    by simp [Forge.makeHandler, herr],
    by simp [Forge.makeHandler, herr]⟩

/-- Witness for C1: a concrete call omitting the required input `id`. -/
theorem c1_missing_required_argument_witness :
    ∃ inp ∈ sampleTool.inputs,
      inp.required ∧ lookupStr [] inp.name = none ∧
      (Forge.makeHandler sampleCfg sampleTool false [] none (fun _ => "")
          (.ok "tok") (.ok 200 "body") []).result
        = .errorResult ("missing required argument: " ++ inp.name) ∧
      (Forge.makeHandler sampleCfg sampleTool false [] none (fun _ => "")
          (.ok "tok") (.ok 200 "body") []).tokenCommandRan = false ∧
      (Forge.makeHandler sampleCfg sampleTool false [] none (fun _ => "")
          (.ok "tok") (.ok 200 "body") []).request = none :=
  c1_missing_required_argument sampleCfg sampleTool
    false [] none (fun _ => "") (.ok "tok") (.ok 200 "body") []
    ⟨{ name := "id", type := "string", required := true },
      by simp [sampleTool], rfl, rfl⟩

/-! ### Claim C10 -/

/-- C10: for every tool call and every outcome — missing required
argument, token-command failure, GraphQL transport failure, or success —
the registered handler returns a nil Go error; failures are encoded in
the returned result value. -/
theorem c10_handler_never_returns_go_error
    (cfg : ForgeConfig) (tcfg : ToolConfig) (isDebug : Bool)
    (osEnv : List (List Char)) (ctxAuth : Option String)
    (hashFn : String → String) (cmd : CmdOutcome) (http : HttpOutcome)
    (args : List (String × JVal)) :
    (Forge.makeHandler cfg tcfg isDebug osEnv ctxAuth hashFn cmd http
        args).goErr = none := by
  cases h : gatherVars tcfg.inputs args [] with
  | error name => simp [Forge.makeHandler, h]
  | ok vars =>
    by_cases hc : cfg.tokenCommand ≠ ""
    · cases cmd <;> simp [Forge.makeHandler, h, hc, Forge.finishCall]
    · simp [Forge.makeHandler, h, hc, Forge.finishCall]

/-! ### Claim C2 -/

/-- C2: whenever the HTTP POST succeeds at the network level the call's
text result is exactly the response body, unmodified, regardless of HTTP
status code; a client-side error arises only from request creation,
connection, or body-read failure. -/
theorem c2_raw_body_passthrough
    (cfg : ForgeConfig) (tcfg : ToolConfig) (isDebug : Bool)
    (osEnv : List (List Char)) (ctxAuth : Option String)
    (hashFn : String → String) (cmd : CmdOutcome) (http : HttpOutcome)
    (args vars : List (String × JVal))
    (hvars : gatherVars tcfg.inputs args [] = .ok vars)
    (htok : cfg.tokenCommand = "" ∨ ∃ out, cmd = .ok out) :
    (∀ status body, http = .ok status body →
      (Forge.makeHandler cfg tcfg isDebug osEnv ctxAuth hashFn cmd http
          args).result = .textResult body) ∧
    (∀ m, http = .reqErr m →
      (Forge.makeHandler cfg tcfg isDebug osEnv ctxAuth hashFn cmd http
          args).result
        = .errorResult ("GraphQL execution failed: " ++
            ("create request: " ++ m))) ∧
    (∀ m, http = .connErr m →
      (Forge.makeHandler cfg tcfg isDebug osEnv ctxAuth hashFn cmd http
          args).result
        = .errorResult ("GraphQL execution failed: " ++
            ("execute request: " ++ m))) ∧
    (∀ m, http = .readErr m →
      (Forge.makeHandler cfg tcfg isDebug osEnv ctxAuth hashFn cmd http
          args).result
        = .errorResult ("GraphQL execution failed: " ++
            ("read response: " ++ m))) := by
  by_cases hc : cfg.tokenCommand = ""
  · refine ⟨?_, ?_, ?_, ?_⟩ <;> intro x y <;> first
      | (intro hh; subst hh;
          simp [Forge.makeHandler, hvars, hc, Forge.finishCall,
            Forge.ExecuteGraphQL])
      | (subst y;
          simp [Forge.makeHandler, hvars, hc, Forge.finishCall,
            Forge.ExecuteGraphQL])
  · rcases htok with h | ⟨out, rfl⟩
    · exact absurd h hc
    · refine ⟨?_, ?_, ?_, ?_⟩ <;> intro x y <;> first
        | (intro hh; subst hh;
            simp [Forge.makeHandler, hvars, hc, Forge.finishCall,
              Forge.ExecuteGraphQL])
        | (subst y;
            simp [Forge.makeHandler, hvars, hc, Forge.finishCall,
              Forge.ExecuteGraphQL])

/-- Witness for C2: a concrete 200-status call returns the body verbatim. -/
theorem c2_raw_body_passthrough_witness :
    (∀ status body,
      (HttpOutcome.ok 200 "\x7b\"data\":\x7b\"user\":\x7b\"id\":\"1\"\x7d\x7d\x7d" :
          HttpOutcome) = .ok status body →
      (Forge.makeHandler sampleCfgNoCmd sampleTool false [] none
          (fun _ => "") (.ok "tok")
          (.ok 200 "\x7b\"data\":\x7b\"user\":\x7b\"id\":\"1\"\x7d\x7d\x7d")
          [("id", .str "1")]).result = .textResult body) ∧
    (∀ m, (HttpOutcome.ok 200 "\x7b\"data\":\x7b\"user\":\x7b\"id\":\"1\"\x7d\x7d\x7d" :
          HttpOutcome) = .reqErr m →
      (Forge.makeHandler sampleCfgNoCmd sampleTool false [] none
          (fun _ => "") (.ok "tok")
          (.ok 200 "\x7b\"data\":\x7b\"user\":\x7b\"id\":\"1\"\x7d\x7d\x7d")
          [("id", .str "1")]).result
        = .errorResult ("GraphQL execution failed: " ++
            ("create request: " ++ m))) ∧
    (∀ m, (HttpOutcome.ok 200 "\x7b\"data\":\x7b\"user\":\x7b\"id\":\"1\"\x7d\x7d\x7d" :
          HttpOutcome) = .connErr m →
      (Forge.makeHandler sampleCfgNoCmd sampleTool false [] none
          (fun _ => "") (.ok "tok")
          (.ok 200 "\x7b\"data\":\x7b\"user\":\x7b\"id\":\"1\"\x7d\x7d\x7d")
          [("id", .str "1")]).result
        = .errorResult ("GraphQL execution failed: " ++
            ("execute request: " ++ m))) ∧
    (∀ m, (HttpOutcome.ok 200 "\x7b\"data\":\x7b\"user\":\x7b\"id\":\"1\"\x7d\x7d\x7d" :
          HttpOutcome) = .readErr m →
      (Forge.makeHandler sampleCfgNoCmd sampleTool false [] none
          (fun _ => "") (.ok "tok")
          (.ok 200 "\x7b\"data\":\x7b\"user\":\x7b\"id\":\"1\"\x7d\x7d\x7d")
          [("id", .str "1")]).result
        = .errorResult ("GraphQL execution failed: " ++
            ("read response: " ++ m))) :=
  c2_raw_body_passthrough sampleCfgNoCmd sampleTool false [] none
    (fun _ => "") (.ok "tok")
    (.ok 200 "\x7b\"data\":\x7b\"user\":\x7b\"id\":\"1\"\x7d\x7d\x7d")
    [("id", .str "1")] [("id", .str "1")]
    (by rfl) (Or.inl rfl)

/-! ### Claim C3 -/

theorem bearer_ne_empty (s : String) : ("Bearer " ++ s) ≠ "" := by
  intro h
  have hl : ("Bearer " ++ s).length = 0 := by rw [h]; rfl
  rw [String.length_append] at hl
  have h7 : "Bearer ".length = 7 := by rfl
  omega

/-- C3: a token command whose trimmed stdout is the non-empty string `s`
yields an outbound Authorization header equal to `Bearer ` followed by
`s`, the prefix applied exactly once — in both the package variant (prefix
applied at token acquisition) and the single-file variant (prefix applied
in the HTTP client). -/
theorem c3_bearer_applied_once
    (cfg : ForgeConfig) (tcfg : ToolConfig) (isDebug : Bool)
    (osEnv : List (List Char)) (ctxAuth : Option String)
    (hashFn : String → String) (out s : String) (http : HttpOutcome)
    (args vars : List (String × JVal))
    (hvars : gatherVars tcfg.inputs args [] = .ok vars)
    (hc : cfg.tokenCommand ≠ "")
    (hs : trimSpace out = s) (hns : s ≠ "")
    (hhttp : ∀ m, http ≠ .reqErr m) :
    (∃ r, (Forge.makeHandler cfg tcfg isDebug osEnv ctxAuth hashFn
        (.ok out) http args).request = some r ∧
      r.authHeader = some ("Bearer " ++ s)) ∧
    (∃ r, (Main.makeHandler cfg tcfg isDebug osEnv
        (.ok out) http args).request = some r ∧
      r.authHeader = some ("Bearer " ++ s)) := by
  have hb : ("Bearer " ++ s) ≠ "" := bearer_ne_empty s
  constructor
  · refine ⟨{ url := cfg.url
              contentType := "application/json"
              authHeader := some ("Bearer " ++ s)
              body := { query := tcfg.query, vars := vars } }, ?_, rfl⟩
    cases http with
    | reqErr m => exact absurd rfl (hhttp m)
    | connErr m =>
      simp [Forge.makeHandler, hvars, hc, Forge.finishCall,
        Forge.ExecuteGraphQL, hs, hb]
    | readErr m =>
      simp [Forge.makeHandler, hvars, hc, Forge.finishCall,
        Forge.ExecuteGraphQL, hs, hb]
    | ok status body =>
      simp [Forge.makeHandler, hvars, hc, Forge.finishCall,
        Forge.ExecuteGraphQL, hs, hb]
  · refine ⟨{ url := cfg.url
              contentType := "application/json"
              authHeader := some ("Bearer " ++ s)
              body := { query := tcfg.query, vars := vars } }, ?_, rfl⟩
    cases http with
    | reqErr m => exact absurd rfl (hhttp m)
    | connErr m =>
      simp [Main.makeHandler, hvars, hc, Main.finishCall,
        Main.executeGraphQL, hs, hns]
    | readErr m =>
      simp [Main.makeHandler, hvars, hc, Main.finishCall,
        Main.executeGraphQL, hs, hns]
    | ok status body =>
      simp [Main.makeHandler, hvars, hc, Main.finishCall,
        Main.executeGraphQL, hs, hns]

/-- Witness for C3: a token command printing `abc123` (with surrounding
whitespace) produces the header `Bearer abc123` in both variants. -/
theorem c3_bearer_applied_once_witness :
    (∃ r, (Forge.makeHandler sampleCfg sampleTool false [] none
        (fun _ => "") (.ok " abc123\n") (.ok 200 "{}")
        [("id", .str "1")]).request = some r ∧
      r.authHeader = some ("Bearer " ++ "abc123")) ∧
    (∃ r, (Main.makeHandler sampleCfg sampleTool false []
        (.ok " abc123\n") (.ok 200 "{}")
        [("id", .str "1")]).request = some r ∧
      r.authHeader = some ("Bearer " ++ "abc123")) :=
  c3_bearer_applied_once sampleCfg sampleTool false [] none
    (fun _ => "") " abc123\n" "abc123" (.ok 200 "{}")
    [("id", .str "1")] [("id", .str "1")]
    (by rfl) (by decide) (by decide) (by decide)
    (fun m h => by cases h)

/-! ### Claim C6 -/

/-- C6: when the token command exits non-zero, the handler returns a
call-level error result whose text includes the captured stderr (trimmed,
when non-empty), no outbound GraphQL request is issued, and the Go error
is nil (no crash). -/
theorem c6_token_command_nonzero_exit
    (cfg : ForgeConfig) (tcfg : ToolConfig) (isDebug : Bool)
    (osEnv : List (List Char)) (ctxAuth : Option String)
    (hashFn : String → String) (http : HttpOutcome)
    (args vars : List (String × JVal)) (errStr stderr t : String)
    (hvars : gatherVars tcfg.inputs args [] = .ok vars)
    (hc : cfg.tokenCommand ≠ "")
    (ht : trimSpace stderr = t) (hnt : t ≠ "") :
    (∃ pre post,
      (Forge.makeHandler cfg tcfg isDebug osEnv ctxAuth hashFn
          (.exitErr errStr stderr) http args).result
        = .errorResult (pre ++ t ++ post)) ∧
    (Forge.makeHandler cfg tcfg isDebug osEnv ctxAuth hashFn
        (.exitErr errStr stderr) http args).request = none ∧
    (Forge.makeHandler cfg tcfg isDebug osEnv ctxAuth hashFn
        (.exitErr errStr stderr) http args).goErr = none := by
  refine ⟨⟨"token_command failed: " ++ errStr ++ " Stderr: ",
    ": " ++ errStr, ?_⟩, ?_, ?_⟩ <;>
    simp [Forge.makeHandler, hvars, hc, ht, hnt, String.append_assoc]

/-- Witness for C6: stderr `denied` appears in the error text and no
request is issued. -/
theorem c6_token_command_nonzero_exit_witness :
    (∃ pre post,
      (Forge.makeHandler sampleCfg sampleTool false [] none (fun _ => "")
          (.exitErr "exit status 1" "denied") (.ok 200 "{}")
          [("id", .str "1")]).result
        = .errorResult (pre ++ "denied" ++ post)) ∧
    (Forge.makeHandler sampleCfg sampleTool false [] none (fun _ => "")
        (.exitErr "exit status 1" "denied") (.ok 200 "{}")
        [("id", .str "1")]).request = none ∧
    (Forge.makeHandler sampleCfg sampleTool false [] none (fun _ => "")
        (.exitErr "exit status 1" "denied") (.ok 200 "{}")
        [("id", .str "1")]).goErr = none :=
  c6_token_command_nonzero_exit sampleCfg sampleTool false [] none
    (fun _ => "") (.ok 200 "{}") [("id", .str "1")] [("id", .str "1")]
    "exit status 1" "denied" "denied"
    (by rfl) (by decide) (by decide) (by decide)

/-! ### Claim C7 -/

/-- C7: with no token command configured and no credential in the call
context, the resolved credential is the empty string and any outbound
request carries no Authorization header. -/
theorem c7_empty_credential_no_header
    (cfg : ForgeConfig) (tcfg : ToolConfig) (isDebug : Bool)
    (osEnv : List (List Char)) (hashFn : String → String)
    (cmd : CmdOutcome) (http : HttpOutcome)
    (args vars : List (String × JVal))
    (hvars : gatherVars tcfg.inputs args [] = .ok vars)
    (hc : cfg.tokenCommand = "") :
    (Forge.makeHandler cfg tcfg isDebug osEnv none hashFn cmd http
        args).resolvedCred = some "" ∧
    ∀ r, (Forge.makeHandler cfg tcfg isDebug osEnv none hashFn cmd http
        args).request = some r → r.authHeader = none := by
  constructor
  · simp [Forge.makeHandler, hvars, hc, Forge.finishCall]
  · intro r hr
    cases http with
    | reqErr m =>
      simp [Forge.makeHandler, hvars, hc, Forge.finishCall,
        Forge.ExecuteGraphQL] at hr
    | connErr m =>
      simp [Forge.makeHandler, hvars, hc, Forge.finishCall,
        Forge.ExecuteGraphQL] at hr
      rw [← hr]
    | readErr m =>
      simp [Forge.makeHandler, hvars, hc, Forge.finishCall,
        Forge.ExecuteGraphQL] at hr
      rw [← hr]
    | ok status body =>
      simp [Forge.makeHandler, hvars, hc, Forge.finishCall,
        Forge.ExecuteGraphQL] at hr
      rw [← hr]

/-- Witness for C7: a concrete call with no token command and no context
credential sends no Authorization header. -/
theorem c7_empty_credential_no_header_witness :
    (Forge.makeHandler sampleCfgNoCmd sampleTool false [] none
        (fun _ => "") (.ok "tok") (.ok 200 "{}")
        [("id", .str "1")]).resolvedCred = some "" ∧
    ∀ r, (Forge.makeHandler sampleCfgNoCmd sampleTool false [] none
        (fun _ => "") (.ok "tok") (.ok 200 "{}")
        [("id", .str "1")]).request = some r → r.authHeader = none :=
  c7_empty_credential_no_header sampleCfgNoCmd sampleTool false []
    (fun _ => "") (.ok "tok") (.ok 200 "{}")
    [("id", .str "1")] [("id", .str "1")] (by rfl) (by rfl)

/-! ### Claim C8 -/

/-- C8: for a call supplying every required argument, the outbound payload
is `{query, variables}` where the `variables` key set is exactly the
declared input names (supplied values bound as given, absent optional
inputs bound to null, undeclared caller arguments excluded), and the
`variables` field is omitted from the serialization exactly when the tool
declares no inputs. -/
theorem c8_payload_variables_exact
    (cfg : ForgeConfig) (tcfg : ToolConfig) (isDebug : Bool)
    (osEnv : List (List Char)) (ctxAuth : Option String)
    (hashFn : String → String) (cmd : CmdOutcome) (http : HttpOutcome)
    (args : List (String × JVal))
    (hcomplete : ∀ inp ∈ tcfg.inputs, inp.required →
      (lookupStr args inp.name).isSome)
    (htok : cfg.tokenCommand = "" ∨ ∃ out, cmd = .ok out) :
    ∃ p, (Forge.makeHandler cfg tcfg isDebug osEnv ctxAuth hashFn cmd http
        args).payload = some p ∧
      p.query = tcfg.query ∧
      (∀ k, (lookupStr p.vars k).isSome
        ↔ k ∈ tcfg.inputs.map (fun i => i.name)) ∧
      (∀ inp ∈ tcfg.inputs, ∀ v, lookupStr args inp.name = some v →
        lookupStr p.vars inp.name = some v) ∧
      (∀ inp ∈ tcfg.inputs, lookupStr args inp.name = none →
        lookupStr p.vars inp.name = some .null) ∧
      (p.hasVariablesField = false ↔ tcfg.inputs = []) := by
  obtain ⟨vars, hvars⟩ := gatherVars_ok_of_complete tcfg.inputs args [] hcomplete
  have hlook := gatherVars_ok_lookup tcfg.inputs args [] vars hvars
  have hpay : (Forge.makeHandler cfg tcfg isDebug osEnv ctxAuth hashFn cmd
      http args).payload = some { query := tcfg.query, vars := vars } := by
    by_cases hc : cfg.tokenCommand = ""
    · cases http <;>
        simp [Forge.makeHandler, hvars, hc, Forge.finishCall,
          Forge.ExecuteGraphQL]
    · rcases htok with h | ⟨out, rfl⟩
      · exact absurd h hc
      · cases http <;>
          simp [Forge.makeHandler, hvars, hc, Forge.finishCall,
            Forge.ExecuteGraphQL]
  refine ⟨{ query := tcfg.query, vars := vars }, hpay, rfl, ?_, ?_, ?_, ?_⟩
  · intro k
    rw [hlook k]
    by_cases hk : k ∈ tcfg.inputs.map (fun i => i.name) <;>
      simp [hk, lookupStr]
  · intro inp hinp v hv
    have : inp.name ∈ tcfg.inputs.map (fun i => i.name) :=
      List.mem_map.mpr ⟨inp, hinp, rfl⟩
    rw [hlook inp.name, if_pos this, hv]
    rfl
  · intro inp hinp hv
    have : inp.name ∈ tcfg.inputs.map (fun i => i.name) :=
      List.mem_map.mpr ⟨inp, hinp, rfl⟩
    rw [hlook inp.name, if_pos this, hv]
    rfl
  · constructor
    · intro hf
      have hempty : vars = [] := by
        rcases vars with _ | ⟨kv, rest⟩
        · rfl
        · simp [GraphqlRequest.hasVariablesField, List.isEmpty] at hf
      rcases htool : tcfg.inputs with _ | ⟨inp, rest⟩
      · rfl
      · have : inp.name ∈ tcfg.inputs.map (fun i => i.name) := by
          rw [htool]; exact List.mem_map.mpr ⟨inp, List.mem_cons_self _ _, rfl⟩
        have hsome := hlook inp.name
        rw [if_pos this, hempty] at hsome
        simp [lookupStr] at hsome
    · intro he
      rw [he] at hvars
      rw [gatherVars] at hvars
      cases hvars
      rfl

/-- Witness for C8 at a concrete call with one supplied required input. -/
theorem c8_payload_variables_exact_witness :
    ∃ p, (Forge.makeHandler sampleCfgNoCmd sampleTool false [] none
        (fun _ => "") (.ok "tok") (.ok 200 "{}")
        [("id", .str "1"), ("extra", .num 3)]).payload = some p ∧
      p.query = sampleTool.query ∧
      (∀ k, (lookupStr p.vars k).isSome
        ↔ k ∈ sampleTool.inputs.map (fun i => i.name)) ∧
      (∀ inp ∈ sampleTool.inputs, ∀ v,
        lookupStr [("id", .str "1"), ("extra", .num 3)] inp.name = some v →
        lookupStr p.vars inp.name = some v) ∧
      (∀ inp ∈ sampleTool.inputs,
        lookupStr [("id", .str "1"), ("extra", .num 3)] inp.name = none →
        lookupStr p.vars inp.name = some .null) ∧
      (p.hasVariablesField = false ↔ sampleTool.inputs = []) :=
  c8_payload_variables_exact sampleCfgNoCmd sampleTool false [] none
    (fun _ => "") (.ok "tok") (.ok 200 "{}")
    [("id", .str "1"), ("extra", .num 3)]
    (by decide) (Or.inl rfl)

/-! ### Claim C4: environment-overlay lemmas -/

theorem goHasPre_iff (s p : List Char) :
    goHasPre s p = true ↔ ∃ t, s = p ++ t := by
  induction p generalizing s with
  | nil => cases s <;> simp [goHasPre]
  | cons p₀ ps ih =>
    cases s with
    | nil => simp [goHasPre]
    | cons c cs =>
      simp only [goHasPre, Bool.and_eq_true, beq_iff_eq, ih,
        List.cons_append]
      constructor
      · rintro ⟨rfl, t, rfl⟩
        exact ⟨t, rfl⟩
      · rintro ⟨t, h⟩
        injection h with h1 h2
        exact ⟨h1, t, h2⟩

theorem keyPre_eq (k : List Char) (w k' : List Char)
    (h : k ++ '=' :: w = k' ++ ['=']) (hk : '=' ∉ k) (hk' : '=' ∉ k') :
    k = k' ∧ w = [] := by
  induction k generalizing k' with
  | nil =>
    cases k' with
    | nil =>
      simp only [List.nil_append] at h
      injection h with h1 h2
      exact ⟨rfl, h2⟩
    | cons b k'' =>
      simp only [List.nil_append, List.cons_append] at h
      injection h with h1 h2
      exact absurd (List.mem_cons.mpr (Or.inl h1)) hk'
  | cons a ks ih =>
    cases k' with
    | nil =>
      simp only [List.cons_append, List.nil_append] at h
      injection h with h1 h2
      exact absurd (List.mem_cons.mpr (Or.inl h1.symm)) hk
    | cons b k'' =>
      rw [List.cons_append, List.cons_append] at h
      injection h with h1 h2
      have hks : '=' ∉ ks := fun hm => hk (List.mem_cons_of_mem _ hm)
      have hk'' : '=' ∉ k'' := fun hm => hk' (List.mem_cons_of_mem _ hm)
      obtain ⟨he, hw⟩ := ih k'' h2 hks hk''
      exact ⟨by rw [h1, he], hw⟩

theorem pre_comparable (p q s : List Char)
    (hp : ∃ t, s = p ++ t) (hq : ∃ u, s = q ++ u) :
    (∃ w, q = p ++ w) ∨ (∃ w, p = q ++ w) := by
  induction p generalizing q s with
  | nil => exact .inl ⟨q, rfl⟩
  | cons a ps ih =>
    cases q with
    | nil => exact .inr ⟨a :: ps, rfl⟩
    | cons b qs =>
      obtain ⟨t, rfl⟩ := hp
      obtain ⟨u, hu⟩ := hq
      rw [List.cons_append, List.cons_append] at hu
      injection hu with h1 h2
      rcases ih qs (ps ++ t) ⟨t, rfl⟩ ⟨u, h2⟩ with ⟨w, hw⟩ | ⟨w, hw⟩
      · exact .inl ⟨w, by rw [List.cons_append, ← hw, h1]⟩
      · exact .inr ⟨w, by rw [List.cons_append, ← hw, h1]⟩

theorem matchKey_unique (e : List Char) (k k' : String)
    (hk : '=' ∉ k.data) (hk' : '=' ∉ k'.data)
    (h1 : goHasPre e (k.data ++ ['=']) = true)
    (h2 : goHasPre e (k'.data ++ ['=']) = true) : k = k' := by
  rw [goHasPre_iff] at h1 h2
  have hd : k.data = k'.data := by
    rcases pre_comparable (k.data ++ ['=']) (k'.data ++ ['=']) e h1 h2
      with ⟨w, hw⟩ | ⟨w, hw⟩
    · have h' : k.data ++ '=' :: w = k'.data ++ ['='] := by
        rw [hw]
        simp
      exact (keyPre_eq _ _ _ h' hk hk').1
    · have h' : k'.data ++ '=' :: w = k.data ++ ['='] := by
        rw [hw]
        simp
      exact ((keyPre_eq _ _ _ h' hk' hk).1).symm
  exact String.ext hd

theorem goHasPre_envEntry_self (k v : String) :
    goHasPre (envEntry k v) (k.data ++ ['=']) = true := by
  rw [goHasPre_iff]
  exact ⟨v.data, by simp [envEntry]⟩

theorem goHasPre_envEntry_ne (k k' v' : String)
    (hk : '=' ∉ k.data) (hk' : '=' ∉ k'.data) (hne : k' ≠ k) :
    goHasPre (envEntry k' v') (k.data ++ ['=']) = false := by
  by_contra h
  rw [Bool.not_eq_false] at h
  exact hne (matchKey_unique (envEntry k' v') k' k hk' hk
    (goHasPre_envEntry_self k' v') h)

theorem overlayEnv_cons (base : List (List Char))
    (kv : String × String) (env : List (String × String)) :
    overlayEnv base (kv :: env) =
      overlayEnv
        (base.filter (fun e => !goHasPre e (kv.1.data ++ ['=']))
          ++ [envEntry kv.1 kv.2]) env := rfl

/-- Overlaying keys different from `k` neither creates nor removes
entries carrying the string prefix `k=`. -/
theorem overlay_filter_untouched (env : List (String × String))
    (base : List (List Char)) (k : String) (hk : '=' ∉ k.data)
    (henv : ∀ kv ∈ env, '=' ∉ kv.1.data)
    (hkn : ∀ kv ∈ env, kv.1 ≠ k) :
    (overlayEnv base env).filter (fun e => goHasPre e (k.data ++ ['='])) =
      base.filter (fun e => goHasPre e (k.data ++ ['='])) := by
  induction env generalizing base with
  | nil => rfl
  | cons kv rest ih =>
    rw [overlayEnv_cons]
    rw [ih _ (fun x hx => henv x (List.mem_cons_of_mem _ hx))
      (fun x hx => hkn x (List.mem_cons_of_mem _ hx))]
    have hne : kv.1 ≠ k := hkn kv (List.mem_cons_self _ _)
    have hkv : '=' ∉ kv.1.data := henv kv (List.mem_cons_self _ _)
    have hentry : goHasPre (envEntry kv.1 kv.2) (k.data ++ ['=']) = false :=
      goHasPre_envEntry_ne k kv.1 kv.2 hk hkv hne
    rw [List.filter_append, List.filter_filter]
    have hcongr :
        base.filter (fun e => goHasPre e (k.data ++ ['=']) &&
          !goHasPre e (kv.1.data ++ ['='])) =
        base.filter (fun e => goHasPre e (k.data ++ ['='])) := by
      apply List.filter_congr
      intro e _
      cases hm : goHasPre e (k.data ++ ['=']) with
      | false => simp
      | true =>
        have h0 : goHasPre e (kv.1.data ++ ['=']) = false := by
          by_contra hb
          rw [Bool.not_eq_false] at hb
          exact hne (matchKey_unique e kv.1 k hkv hk hb hm)
        simp [h0]
    rw [hcongr]
    simp [List.filter_cons, hentry]

/-- After the full overlay, the entries matching a configured key are
exactly the one override entry for that key. -/
theorem overlayEnv_key_once (env : List (String × String))
    (base : List (List Char))
    (hkeys : (env.map Prod.fst).Nodup)
    (hclean : ∀ kv ∈ env, '=' ∉ kv.1.data) :
    ∀ kv ∈ env,
      (overlayEnv base env).filter
          (fun e => goHasPre e (kv.1.data ++ ['='])) =
        [envEntry kv.1 kv.2] := by
  induction env generalizing base with
  | nil =>
    intro kv h
    cases h
  | cons kv₀ rest ih =>
    rw [List.map_cons, List.nodup_cons] at hkeys
    intro kv hkv
    rcases List.mem_cons.mp hkv with rfl | hmem
    · rw [overlayEnv_cons]
      have hcl : '=' ∉ kv.1.data := hclean kv (List.mem_cons_self _ _)
      have hnotin : ∀ x ∈ rest, x.1 ≠ kv.1 := by
        intro x hx hxe
        exact hkeys.1 (List.mem_map.mpr ⟨x, hx, hxe⟩)
      rw [overlay_filter_untouched rest _ kv.1 hcl
        (fun x hx => hclean x (List.mem_cons_of_mem _ hx)) hnotin]
      rw [List.filter_append, List.filter_filter]
      have hbase : base.filter (fun e => goHasPre e (kv.1.data ++ ['=']) &&
          !goHasPre e (kv.1.data ++ ['='])) = [] := by
        rw [List.filter_eq_nil_iff]
        intro a _
        simp
      rw [hbase]
      simp [List.filter_cons, goHasPre_envEntry_self]
    · rw [overlayEnv_cons]
      exact ih _ hkeys.2
        (fun x hx => hclean x (List.mem_cons_of_mem _ hx)) kv hmem

/-- C4: when the token command runs, its environment is the process
environment (if `env_passthrough`) or the empty set, overlaid with the
configured overrides: every pre-existing entry for an overridden key is
removed, and each overridden key appears exactly once, bound to its
override value. -/
theorem c4_env_overlay_exact
    (cfg : ForgeConfig) (tcfg : ToolConfig) (isDebug : Bool)
    (osEnv : List (List Char)) (ctxAuth : Option String)
    (hashFn : String → String) (cmd : CmdOutcome) (http : HttpOutcome)
    (args vars : List (String × JVal))
    (hvars : gatherVars tcfg.inputs args [] = .ok vars)
    (hc : cfg.tokenCommand ≠ "")
    (hkeys : (cfg.env.map Prod.fst).Nodup)
    (hclean : ∀ kv ∈ cfg.env, '=' ∉ kv.1.data) :
    ∃ E, (Forge.makeHandler cfg tcfg isDebug osEnv ctxAuth hashFn cmd http
        args).cmdEnv = some E ∧
      E = overlayEnv (if cfg.envPassthrough then osEnv else []) cfg.env ∧
      ∀ kv ∈ cfg.env,
        E.countP (fun e => goHasPre e (kv.1.data ++ ['='])) = 1 ∧
        envEntry kv.1 kv.2 ∈ E ∧
        (∀ e ∈ E, goHasPre e (kv.1.data ++ ['=']) = true →
          e = envEntry kv.1 kv.2) := by
  refine ⟨overlayEnv (if cfg.envPassthrough then osEnv else []) cfg.env,
    ?_, rfl, ?_⟩
  · cases cmd <;> simp [Forge.makeHandler, hvars, hc, Forge.finishCall]
  · intro kv hkv
    have hfil := overlayEnv_key_once cfg.env
      (if cfg.envPassthrough then osEnv else []) hkeys hclean kv hkv
    refine ⟨?_, ?_, ?_⟩
    · rw [List.countP_eq_length_filter, hfil]
      rfl
    · have hmem : envEntry kv.1 kv.2 ∈
          (overlayEnv (if cfg.envPassthrough then osEnv else [])
            cfg.env).filter (fun e => goHasPre e (kv.1.data ++ ['='])) := by
        rw [hfil]
        exact List.mem_cons_self _ _
      exact (List.mem_filter.mp hmem).1
    · intro e he hm
      have hmem : e ∈
          (overlayEnv (if cfg.envPassthrough then osEnv else [])
            cfg.env).filter (fun e => goHasPre e (kv.1.data ++ ['='])) :=
        List.mem_filter.mpr ⟨he, hm⟩
      rw [hfil] at hmem
      simpa using hmem

/-- Witness for C4: `env_passthrough: true` with `env: {FOO: "bar"}` and a
pre-existing `FOO` entry gives exactly one `FOO=bar` entry. -/
theorem c4_env_overlay_exact_witness :
    ∃ E, (Forge.makeHandler sampleCfgEnv sampleTool false
        [envEntry "FOO" "old", envEntry "PATH" "p"] none (fun _ => "")
        (.ok "tok") (.ok 200 "{}") [("id", .str "1")]).cmdEnv = some E ∧
      E = overlayEnv
        (if sampleCfgEnv.envPassthrough then
          [envEntry "FOO" "old", envEntry "PATH" "p"] else [])
        sampleCfgEnv.env ∧
      ∀ kv ∈ sampleCfgEnv.env,
        E.countP (fun e => goHasPre e (kv.1.data ++ ['='])) = 1 ∧
        envEntry kv.1 kv.2 ∈ E ∧
        (∀ e ∈ E, goHasPre e (kv.1.data ++ ['=']) = true →
          e = envEntry kv.1 kv.2) :=
  c4_env_overlay_exact sampleCfgEnv sampleTool false
    [envEntry "FOO" "old", envEntry "PATH" "p"] none (fun _ => "")
    (.ok "tok") (.ok 200 "{}") [("id", .str "1")] [("id", .str "1")]
    (by rfl) (by decide) (by decide) (by decide)

/-! ### Claim C5 -/

/-- C5: a tool file that fails to parse, or whose definition declares an
input type outside string/number, emits a warning, contributes nothing to
the registered set (all-or-nothing), and registration continues for the
remaining files exactly as if the file were absent. -/
theorem c5_invalid_tool_skipped
    (fs₁ fs₂ : List ToolFile) (f : ToolFile)
    (hbad : (∃ base err, f = .bad base err ∧ base ≠ "forge.yaml") ∨
      (∃ base t, f = .good base t ∧ base ≠ "forge.yaml" ∧
        ∃ i ∈ t.inputs, i.type ≠ "string" ∧ i.type ≠ "number")) :
    (RegisterTools (fs₁ ++ f :: fs₂)).1 = (RegisterTools (fs₁ ++ fs₂)).1 ∧
    (processToolFile f).1 = none ∧
    (processToolFile f).2 ≠ [] ∧
    ∀ w ∈ (processToolFile f).2, w ∈ (RegisterTools (fs₁ ++ f :: fs₂)).2 := by
  have hnone : (processToolFile f).1 = none := by
    rcases hbad with ⟨base, err, rfl, hbase⟩ | ⟨base, t, rfl, hbase, i, hi, h1, h2⟩
    · simp [processToolFile, hbase]
    · have hvalid : validTool t = false := by
        rw [Bool.eq_false_iff]
        intro hall
        rw [validTool, List.all_eq_true] at hall
        have := hall i hi
        rw [inputTypeOk, Bool.or_eq_true, beq_iff_eq, beq_iff_eq] at this
        rcases this with h | h
        · exact h1 h
        · exact h2 h
      simp [processToolFile, hbase, hvalid]
  have hwarn : (processToolFile f).2 ≠ [] := by
    rcases hbad with ⟨base, err, rfl, hbase⟩ | ⟨base, t, rfl, hbase, i, hi, h1, h2⟩
    · simp [processToolFile, hbase]
    · have hmem : unsupportedWarning t i ∈ inputWarnings t := by
        rw [inputWarnings, List.mem_filterMap]
        refine ⟨i, hi, ?_⟩
        have : inputTypeOk i = false := by
          rw [Bool.eq_false_iff]
          intro h
          rw [inputTypeOk, Bool.or_eq_true, beq_iff_eq, beq_iff_eq] at h
          rcases h with h | h
          · exact h1 h
          · exact h2 h
        rw [this]
        rfl
      have : (processToolFile (.good base t)).2 = inputWarnings t := by
        simp [processToolFile, hbase]
      rw [this]
      exact List.ne_nil_of_mem hmem
  refine ⟨?_, hnone, hwarn, ?_⟩
  · show ((fs₁ ++ f :: fs₂).filterMap (fun f => (processToolFile f).1)) =
      ((fs₁ ++ fs₂).filterMap (fun f => (processToolFile f).1))
    simp [List.filterMap_append, List.filterMap_cons, hnone]
  · intro w hw
    show w ∈ ((fs₁ ++ f :: fs₂).map
        (fun f => (processToolFile f).2)).flatten
    rw [List.mem_flatten]
    exact ⟨(processToolFile f).2,
      List.mem_map.mpr ⟨f, by simp, rfl⟩, hw⟩

/-- Witness for C5: a file declaring a `boolean` input is skipped with a
warning while surrounding files still register. -/
theorem c5_invalid_tool_skipped_witness :
    (RegisterTools ([.good "a.yaml" sampleTool] ++
        .good "b.yaml" sampleBadTool :: [.good "c.yaml" sampleToolNoInputs])).1
      = (RegisterTools ([.good "a.yaml" sampleTool] ++
          [.good "c.yaml" sampleToolNoInputs])).1 ∧
    (processToolFile (.good "b.yaml" sampleBadTool)).1 = none ∧
    (processToolFile (.good "b.yaml" sampleBadTool)).2 ≠ [] ∧
    ∀ w ∈ (processToolFile (.good "b.yaml" sampleBadTool)).2,
      w ∈ (RegisterTools ([.good "a.yaml" sampleTool] ++
        .good "b.yaml" sampleBadTool ::
          [.good "c.yaml" sampleToolNoInputs])).2 :=
  c5_invalid_tool_skipped [.good "a.yaml" sampleTool]
    [.good "c.yaml" sampleToolNoInputs] (.good "b.yaml" sampleBadTool)
    (Or.inr ⟨"b.yaml", sampleBadTool, rfl, by decide,
      { name := "flag", type := "boolean", required := false },
      by simp [sampleBadTool], by decide, by decide⟩)

/-! ### Claim C9 -/

/-- C9 is false as stated: at a concrete debug-enabled call, the full dump
of the outbound GraphQL request is written to the diagnostic log and it
contains the acquired credential in plaintext (inside the Authorization
header), so the credential does not appear "only as a hash". -/
theorem c9_counterexample :
    ∃ line ∈ (Forge.makeHandler sampleCfg sampleToolNoInputs true [] none
        (fun _ => "h") (.ok "abc123") (.ok 200 "{}") []).debugLog,
      ∃ pre post, line = pre ++ "Bearer abc123" ++ post := by
  refine ⟨"POST http://e HTTP/1.1\r\nAuthorization: Bearer abc123\r\nContent-Type: application/json\r\n\r\n",
    ?_, "POST http://e HTTP/1.1\r\nAuthorization: ",
    "\r\nContent-Type: application/json\r\n\r\n", ?_⟩
  · decide
  · decide

/-- C9 amended: the dedicated credential log line logs only the hash of
the acquired credential — but the debug log also contains the full dump of
the outbound request, which carries the plaintext credential in its
Authorization header; and the single-file variant logs the plaintext
token directly. -/
theorem c9_amended_hash_line_but_dump_plaintext
    (cfg : ForgeConfig) (tcfg : ToolConfig)
    (osEnv : List (List Char)) (ctxAuth : Option String)
    (hashFn : String → String) (out : String) (http : HttpOutcome)
    (args vars : List (String × JVal))
    (hvars : gatherVars tcfg.inputs args [] = .ok vars)
    (hc : cfg.tokenCommand ≠ "")
    (hhttp : ∀ m, http ≠ .reqErr m) :
    ("Obtained token (sha256): " ++ hashFn ("Bearer " ++ trimSpace out))
      ∈ (Forge.makeHandler cfg tcfg true osEnv ctxAuth hashFn (.ok out)
          http args).debugLog ∧
    (∃ r, (Forge.makeHandler cfg tcfg true osEnv ctxAuth hashFn (.ok out)
        http args).request = some r ∧
      dumpRequestOut r ∈ (Forge.makeHandler cfg tcfg true osEnv ctxAuth
        hashFn (.ok out) http args).debugLog ∧
      ∃ pre post, dumpRequestOut r
        = pre ++ ("Bearer " ++ trimSpace out) ++ post) ∧
    ("Obtained token: " ++ trimSpace out)
      ∈ (Main.makeHandler cfg tcfg true osEnv (.ok out) http
          args).debugLog := by
  have hb : ("Bearer " ++ trimSpace out) ≠ "" := bearer_ne_empty _
  refine ⟨?_, ?_, ?_⟩
  · cases http with
    | reqErr m => exact absurd rfl (hhttp m)
    | connErr m =>
      simp [Forge.makeHandler, hvars, hc, Forge.finishCall,
        Forge.ExecuteGraphQL]
    | readErr m =>
      simp [Forge.makeHandler, hvars, hc, Forge.finishCall,
        Forge.ExecuteGraphQL]
    | ok status body =>
      simp [Forge.makeHandler, hvars, hc, Forge.finishCall,
        Forge.ExecuteGraphQL]
  · refine ⟨{ url := cfg.url
              contentType := "application/json"
              authHeader := some ("Bearer " ++ trimSpace out)
              body := { query := tcfg.query, vars := vars } }, ?_, ?_, ?_⟩
    · cases http with
      | reqErr m => exact absurd rfl (hhttp m)
      | connErr m =>
        simp [Forge.makeHandler, hvars, hc, Forge.finishCall,
          Forge.ExecuteGraphQL, hb]
      | readErr m =>
        simp [Forge.makeHandler, hvars, hc, Forge.finishCall,
          Forge.ExecuteGraphQL, hb]
      | ok status body =>
        simp [Forge.makeHandler, hvars, hc, Forge.finishCall,
          Forge.ExecuteGraphQL, hb]
    · cases http with
      | reqErr m => exact absurd rfl (hhttp m)
      | connErr m =>
        simp [Forge.makeHandler, hvars, hc, Forge.finishCall,
          Forge.ExecuteGraphQL, hb]
      | readErr m =>
        simp [Forge.makeHandler, hvars, hc, Forge.finishCall,
          Forge.ExecuteGraphQL, hb]
      | ok status body =>
        simp [Forge.makeHandler, hvars, hc, Forge.finishCall,
          Forge.ExecuteGraphQL, hb]
    · refine ⟨"POST " ++ cfg.url ++ " HTTP/1.1\r\n" ++ "Authorization: ",
        "\r\n" ++ ("Content-Type: " ++ "application/json" ++ "\r\n\r\n"),
        ?_⟩
      simp only [dumpRequestOut, String.append_assoc]
  · cases http with
    | reqErr m => exact absurd rfl (hhttp m)
    | connErr m =>
      simp [Main.makeHandler, hvars, hc, Main.finishCall,
        Main.executeGraphQL]
    | readErr m =>
      simp [Main.makeHandler, hvars, hc, Main.finishCall,
        Main.executeGraphQL]
    | ok status body =>
      simp [Main.makeHandler, hvars, hc, Main.finishCall,
        Main.executeGraphQL]

/-- Witness for the amended C9 at a concrete call. -/
theorem c9_amended_witness :
    ("Obtained token (sha256): " ++
        (fun _ => "h") ("Bearer " ++ trimSpace "abc123"))
      ∈ (Forge.makeHandler sampleCfg sampleToolNoInputs true [] none
          (fun _ => "h") (.ok "abc123") (.ok 200 "{}") []).debugLog ∧
    (∃ r, (Forge.makeHandler sampleCfg sampleToolNoInputs true [] none
        (fun _ => "h") (.ok "abc123") (.ok 200 "{}") []).request = some r ∧
      dumpRequestOut r ∈ (Forge.makeHandler sampleCfg sampleToolNoInputs
        true [] none (fun _ => "h") (.ok "abc123") (.ok 200 "{}")
        []).debugLog ∧
      ∃ pre post, dumpRequestOut r
        = pre ++ ("Bearer " ++ trimSpace "abc123") ++ post) ∧
    ("Obtained token: " ++ trimSpace "abc123")
      ∈ (Main.makeHandler sampleCfg sampleToolNoInputs true []
          (.ok "abc123") (.ok 200 "{}") []).debugLog :=
  c9_amended_hash_line_but_dump_plaintext sampleCfg sampleToolNoInputs
    [] none (fun _ => "h") "abc123" (.ok 200 "{}") [] []
    (by rfl) (by decide) (fun m h => by cases h)
